import Mathlib

/-!
Shallow embedding of the Reconciliation & Analysis Engine of `src/finance.py`
(class `FinanceAIAgentCore`, its in-memory store and the FastAPI endpoints).
Amounts are modelled as exact rationals; a Python `None` amount is `Option.none`.
Python exceptions (`TypeError` from `None` arithmetic or string formatting,
`IndexError` from `columns[-1]` on an empty axis, `HTTPException`) are modelled
with `Except`.
-/

namespace FinanceAgent

/-- A stored line item, mirroring `FinancialStatementLine` (finance.py lines
64-68): the statement type string, the standardized account name, the fiscal
year (`as_of_date.year`; uploads store December 31 of the upload's fiscal
year), and the amount, `none` when the value is missing. -/
structure LineItem where
  statement_type : String
  standard_account : String
  year : Nat
  amount : Option ℚ
deriving Repr, DecidableEq

/-- One row of the DataFrame built by `_load_data_from_db` (lines 120-138):
the frame keeps only account, year and amount; the stored statement type is
not part of it. -/
structure Row where
  account : String
  year : Nat
  amount : Option ℚ
deriving Repr, DecidableEq

/-- A loaded DataFrame: its rows, and the labels of the columns that survive
`dropna(axis=1, how='all')` — one column per line item with a non-null
amount, in storage order, so `columns[-1]` is the last label of `cols`.
`pd.concat(axis=1)` never merges equal labels, so the items of one fiscal
year contribute several columns all carrying that same year label. -/
structure Frame where
  rows : List Row
  cols : List Nat
deriving Repr, DecidableEq

def LineItem.toRow (it : LineItem) : Row :=
  ⟨it.standard_account, it.year, it.amount⟩

/-- The years of the line items whose amount is non-null, in storage order:
the column labels kept by `dropna(axis=1, how='all')` (line 131). -/
def keptYears (items : List LineItem) : List Nat :=
  (items.filter (fun it => it.amount.isSome)).map (fun it => it.year)

/-- `combined_df` of `_load_data_from_db` (lines 120-138): the concatenation
of one single-row frame per line item, with all-null columns dropped and
`NaN` mapped back to `None`. -/
def mkFrame (items : List LineItem) : Option Frame :=
  if items.isEmpty then none
  else some ⟨items.map LineItem.toRow, keptYears items⟩

/-- The frame a non-empty project loads to (the `some` payload of
`mkFrame`). -/
def loadedFrame (items : List LineItem) : Frame :=
  ⟨items.map LineItem.toRow, keptYears items⟩

/-- Line 131: `self.bs_df` is the combined frame of all of the project's
line items, whatever their stored statement type. -/
def bs_df (items : List LineItem) : Option Frame := mkFrame items

/-- Line 132: `self.is_df` is the same combined frame. -/
def is_df (items : List LineItem) : Option Frame := mkFrame items

/-- Line 133: `self.cfs_df` is the same combined frame. -/
def cfs_df (items : List LineItem) : Option Frame := mkFrame items

/-- The frame's index: the account of every row. -/
def Frame.index (fr : Frame) : List String := fr.rows.map Row.account

/-- The amount of the first stored row for account `a` in year `y` — a row
accessor used to state row contents in theorems; reads of the DataFrame
itself go through `locRead` below. -/
def locCell (rows : List Row) (a : String) (y : Nat) : Option ℚ :=
  match rows.find? (fun r => r.account == a && r.year == y) with
  | some r => r.amount
  | none => none

/-- `CRITICAL_BS_ITEMS` (line 43). -/
def CRITICAL_BS_ITEMS : List String :=
  ["현금", "매출채권", "재고자산", "단기차입금", "자본금"]

/-- `CRITICAL_IS_ITEMS` (line 44). -/
def CRITICAL_IS_ITEMS : List String :=
  ["매출액", "매출원가", "영업이익"]

/-- `CRITICAL_CFS_ITEMS` (line 45); never consulted by the detector. -/
def CRITICAL_CFS_ITEMS : List String :=
  ["영업활동현금흐름", "투자활동현금흐름", "재무활동현금흐름"]

/-- One audit-log entry (lines 190-197). The source entry also records a
wall-clock `timestamp` string and the constant `agent_action`
`"Filled by User Input"`; neither affects any control flow. -/
structure RecEntry where
  statement_type : String
  item : String
  provided_value : ℚ
  fiscal_year : Nat
deriving Repr, DecidableEq

/-- The per-request agent state after `_load_data_from_db`: the three frames
and the reconciliation log. -/
structure AgentCore where
  bs_df : Option Frame
  is_df : Option Frame
  cfs_df : Option Frame
  log : List RecEntry
deriving Repr, DecidableEq

/-- The agent core over a project's stored line items and stored log. -/
def mkAgent (items : List LineItem) (log : List RecEntry) : AgentCore :=
  ⟨bs_df items, is_df items, cfs_df items, log⟩

/-- Python exceptions escaping the core. -/
inductive PyErr where
  | typeError
  | indexError
  | valueError
  | zeroDivisionError
  | httpErr400
deriving Repr, DecidableEq

/-- A value read from a frame: a scalar cell, or — when a label addresses
several of the per-item columns — a whole column slice (a pandas Series). -/
inductive PyVal where
  | scalar (x : Option ℚ)
  | series (xs : List (Option ℚ))
deriving Repr, DecidableEq

/-- The kept columns carrying label `L`: one per line item with a non-null
amount and that year. -/
def keptAt (fr : Frame) (L : Nat) : List Row :=
  fr.rows.filter (fun r => r.amount.isSome && r.year == L)

/-- The cells of row `a` across the columns labeled `L`: a kept column holds
its item's amount at that item's account row and `None` at every other
row. -/
def colCells (fr : Frame) (a : String) (L : Nat) : List (Option ℚ) :=
  (keptAt fr L).map (fun r => if r.account == a then r.amount else none)

/-- The single cell of `df.loc[a, L]` when exactly one column carries `L`. -/
def scalarCell (fr : Frame) (a : String) (L : Nat) : Option ℚ :=
  (colCells fr a L).headD none

/-- `df.loc[a, L]`: a scalar when exactly one column carries the label `L`,
otherwise a Series over all matching columns. (A label matching no column
would be a KeyError; every call site reads `columns[-1]` of a non-empty
axis, which at least one column matches.) -/
def locRead (fr : Frame) (a : String) (L : Nat) : PyVal :=
  match colCells fr a L with
  | [x] => .scalar x
  | xs => .series xs

/-- `pd.isna(x)` used in a boolean context: well-defined on a scalar; a
Series has no single truth value and raises `ValueError`. -/
def pdIsnaBool : PyVal → Except PyErr Bool
  | .scalar x => .ok x.isNone
  | .series _ => .error .valueError

/-- Python truthiness of a frame value: `None` and `0` are falsy; a Series
in a boolean context raises `ValueError`. -/
def pyTruthyVal : PyVal → Except PyErr Bool
  | .scalar none => .ok false
  | .scalar (some q) => .ok (q != 0)
  | .series _ => .error .valueError

/-- Cellwise `+`: `None` supports no arithmetic and raises `TypeError`. -/
def addCells : Option ℚ → Option ℚ → Except PyErr (Option ℚ)
  | some a, some b => .ok (some (a + b))
  | _, _ => .error .typeError

/-- Cellwise `-`: `None` supports no arithmetic and raises `TypeError`. -/
def subCells : Option ℚ → Option ℚ → Except PyErr (Option ℚ)
  | some a, some b => .ok (some (a - b))
  | _, _ => .error .typeError

/-- Cellwise `/`: `None` raises `TypeError`, a zero denominator
`ZeroDivisionError`. -/
def divCells : Option ℚ → Option ℚ → Except PyErr (Option ℚ)
  | some a, some b =>
    if b = 0 then .error .zeroDivisionError else .ok (some (a / b))
  | _, _ => .error .typeError

/-- Elementwise combination of two same-frame Series: their labels are
identical, so pandas operates positionally; the first failing element's
exception propagates. Mismatched lengths cannot arise from one frame. -/
def seriesZip (op : Option ℚ → Option ℚ → Except PyErr (Option ℚ)) :
    List (Option ℚ) → List (Option ℚ) → Except PyErr (List (Option ℚ))
  | [], [] => .ok []
  | x :: xs, y :: ys =>
    match op x y with
    | .error e => .error e
    | .ok z =>
      match seriesZip op xs ys with
      | .error e => .error e
      | .ok zs => .ok (z :: zs)
  | _, _ => .error .valueError

/-- Broadcasting one operand over a Series, elementwise. -/
def seriesMap (op : Option ℚ → Except PyErr (Option ℚ)) :
    List (Option ℚ) → Except PyErr (List (Option ℚ))
  | [] => .ok []
  | x :: xs =>
    match op x with
    | .error e => .error e
    | .ok z =>
      match seriesMap op xs with
      | .error e => .error e
      | .ok zs => .ok (z :: zs)

/-- A binary operation on frame values: scalar/scalar, Series/Series
(positional), or a scalar broadcast over a Series. -/
def pyBin (op : Option ℚ → Option ℚ → Except PyErr (Option ℚ)) :
    PyVal → PyVal → Except PyErr PyVal
  | .scalar x, .scalar y => (op x y).map .scalar
  | .series xs, .series ys => (seriesZip op xs ys).map .series
  | .scalar x, .series ys => (seriesMap (op x) ys).map .series
  | .series xs, .scalar y => (seriesMap (fun x => op x y) xs).map .series

/-- `+` on frame values. -/
def pyAdd : PyVal → PyVal → Except PyErr PyVal := pyBin addCells

/-- `-` on frame values. -/
def pySub : PyVal → PyVal → Except PyErr PyVal := pyBin subCells

/-- `/` on frame values. -/
def pyDiv : PyVal → PyVal → Except PyErr PyVal := pyBin divCells

/-- One statement's scan of the detector (the list comprehensions at lines
158 and 165): for each mandatory account, the short-circuit
`item in index and pd.isna(df.loc[item, latest])`, left to right; the first
`pd.isna` applied to a Series aborts the whole scan with `ValueError`. -/
def missingScan (fr : Frame) (L : Nat) :
    List String → Except PyErr (List String)
  | [] => .ok []
  | a :: rest =>
    if decide (a ∈ fr.index) then
      match pdIsnaBool (locRead fr a L) with
      | .error e => .error e
      | .ok b =>
        match missingScan fr L rest with
        | .error e => .error e
        | .ok tail => .ok (if b then a :: tail else tail)
    else missingScan fr L rest

/-- The missing items of one statement's frame against one mandatory list
(lines 156-167): skip a `None` or empty frame, then scan the mandatory
accounts against the last column. -/
def missingOf (fr? : Option Frame) (critical : List String) :
    Except PyErr (List String) :=
  match fr? with
  | none => .ok []
  | some fr =>
    if fr.rows.isEmpty || fr.cols.isEmpty then .ok []
    else missingScan fr (fr.cols.getLastD 0) critical

/-- `_detect_missing_critical_items` (lines 151-171): the BS list against
`bs_df`, then the IS list against `is_df`; CFS is never checked; an
exception from either scan propagates. -/
def detect_missing_critical_items (c : AgentCore) :
    Except PyErr (List (String × List String)) :=
  match missingOf c.bs_df CRITICAL_BS_ITEMS with
  | .error e => .error e
  | .ok missing_bs =>
    match missingOf c.is_df CRITICAL_IS_ITEMS with
    | .error e => .error e
    | .ok missing_is =>
      .ok ((if missing_bs.isEmpty then [] else [("BS", missing_bs)])
        ++ (if missing_is.isEmpty then [] else [("IS", missing_is)]))

/-- Python truthiness of an optional year label. -/
def pyTruthyNat (x : Option Nat) : Bool :=
  match x with
  | none => false
  | some n => n != 0

/-- Line 203/204: `columns[-1]` when the frame exists and is not empty,
else `None`. -/
def latestColOf (fr? : Option Frame) : Option Nat :=
  match fr? with
  | some fr =>
    if !fr.rows.isEmpty && !fr.cols.isEmpty then some (fr.cols.getLastD 0)
    else none
  | none => none

/-- The liquidity guard of `_analyze_financials` (line 206) as one boolean. -/
def liqGuard (fr : Frame) : Bool :=
  pyTruthyNat (latestColOf (some fr)) && decide ("현금" ∈ fr.index)
    && decide ("매출채권" ∈ fr.index) && decide ("재고자산" ∈ fr.index)
    && decide ("단기차입금" ∈ fr.index)

/-- The profitability guard of `_analyze_financials` (line 220) as one
boolean. -/
def profGuard (fr : Frame) : Bool :=
  pyTruthyNat (latestColOf (some fr)) && decide ("매출액" ∈ fr.index)
    && decide ("매출원가" ∈ fr.index) && decide ("판관비" ∈ fr.index)

/-- `self.analysis_results` after `_analyze_financials` (lines 201-236).
`none` is a key never set — or, for the ratio keys, a key set to Python
`None` because its guard failed; a set key holds whatever frame value the
computation produced. -/
structure AnalysisResults where
  cur_assets : Option PyVal
  cur_liab : Option PyVal
  cur_rate : Option PyVal
  gp_margin : Option PyVal
  op_margin : Option PyVal
  cash_quality : String
deriving Repr, DecidableEq

/-- Lines 206-218: the liquidity block of `_analyze_financials`. Once the
guard passes, `current_assets` adds the three `loc` reads — scalars or
Series holding `None` off their own item's row — and the ratio conditional
first asks for the liabilities' truth value. -/
def liquidityBlock (fr? : Option Frame) :
    Except PyErr (Option PyVal × Option PyVal × Option PyVal) :=
  match fr? with
  | none => .ok (none, none, none)
  | some fr =>
    if liqGuard fr then
      match pyAdd (locRead fr "현금" (fr.cols.getLastD 0))
          (locRead fr "매출채권" (fr.cols.getLastD 0)) with
      | .error e => .error e
      | .ok cashRecv =>
        match pyAdd cashRecv
            (if decide ("재고자산" ∈ fr.index) then
              locRead fr "재고자산" (fr.cols.getLastD 0)
            else .scalar (some 0)) with
        | .error e => .error e
        | .ok current_assets =>
          match pyTruthyVal (locRead fr "단기차입금" (fr.cols.getLastD 0)) with
          | .error e => .error e
          | .ok true =>
            match pyDiv current_assets
                (locRead fr "단기차입금" (fr.cols.getLastD 0)) with
            | .error e => .error e
            | .ok rate =>
              .ok (some current_assets,
                some (locRead fr "단기차입금" (fr.cols.getLastD 0)), some rate)
          | .ok false =>
            .ok (some current_assets,
              some (locRead fr "단기차입금" (fr.cols.getLastD 0)),
              some (.scalar (some 0)))
    else .ok (none, none, none)

/-- Lines 220-233: the profitability block of `_analyze_financials`. The
guard checks index membership only; the subtractions then combine reads
that are Series or contain `None`, and each margin guards its division by
the revenue's truth value. -/
def profitBlock (fr? : Option Frame) :
    Except PyErr (Option PyVal × Option PyVal) :=
  match fr? with
  | none => .ok (none, none)
  | some fr =>
    if profGuard fr then
      match pySub (locRead fr "매출액" (fr.cols.getLastD 0))
          (locRead fr "매출원가" (fr.cols.getLastD 0)) with
      | .error e => .error e
      | .ok gross_profit =>
        match pySub gross_profit (locRead fr "판관비" (fr.cols.getLastD 0)) with
        | .error e => .error e
        | .ok operating_income =>
          match pyTruthyVal (locRead fr "매출액" (fr.cols.getLastD 0)) with
          | .error e => .error e
          | .ok true =>
            match pyDiv gross_profit
                (locRead fr "매출액" (fr.cols.getLastD 0)) with
            | .error e => .error e
            | .ok gpm =>
              match pyDiv operating_income
                  (locRead fr "매출액" (fr.cols.getLastD 0)) with
              | .error e => .error e
              | .ok opm => .ok (some gpm, some opm)
          | .ok false =>
            .ok (some (.scalar (some 0)), some (.scalar (some 0)))
    else .ok (none, none)

/-- `_analyze_financials` (lines 201-236): the liquidity block over `bs_df`,
then the profitability block over `is_df`, then the constant cash-flow
comment. -/
def analyze_financials (c : AgentCore) : Except PyErr AnalysisResults :=
  match liquidityBlock c.bs_df with
  | .error e => .error e
  | .ok (ca, cl, rate) =>
    match profitBlock c.is_df with
    | .error e => .error e
    | .ok (gp, op) => .ok ⟨ca, cl, rate, gp, op, "데이터 부족"⟩

/-- `IN_MEMORY_DB["glossary_terms"]` (lines 33-41):
(term, plain explanation, analysis criterion). -/
def glossary_terms : List (String × String × String) :=
  [("유동자산", "1년 안에 현금으로 바꿀 수 있는 자산.", "단기 자금 동원력"),
   ("유동부채", "1년 안에 갚아야 하는 빚.", "단기 상환 의무"),
   ("유동비율", "단기 빚을 갚을 능력을 보여주는 지표.", "200% 이상이 양호"),
   ("매출총이익률", "매출액에서 원가를 뺀 마진율.", "핵심 사업 경쟁력"),
   ("판관비", "물건을 팔거나 회사를 운영하는 데 들어가는 비용.", "영업 효율성"),
   ("단기 지급 능력", "가까운 시일(보통 1년 이내)에 예상되는 빚을 제때 갚을 수 있는 회사의 능력을 의미합니다.", "유동비율과 당좌비율 등을 통해 측정합니다."),
   ("매출원가", "물건을 만들거나 서비스를 제공하는 데 직접 들어간 비용입니다.", "주력 사업의 비용 효율성")]

/-- The data of the document built by `_generate_report_content`
(lines 238-273): which executive-summary ratio sentences are included (one
per non-`None` ratio), the profitability figure interpolated into the
detailed what/why/action block, the full glossary, and the audit log. The
surrounding narrative is fixed template text. -/
structure ReportContent where
  exec_cur_rate : Option ℚ
  exec_gp_margin : Option ℚ
  exec_op_margin : Option ℚ
  profit_what_gp : ℚ
  glossary : List (String × String × String)
  reconciliation_log : List RecEntry
deriving Repr, DecidableEq

/-- One guarded summary line (lines 251-256): skipped when the value is
`None`; formatting anything but a plain number raises `TypeError`. -/
def fmtOpt : Option PyVal → Except PyErr (Option ℚ)
  | none => .ok none
  | some (.scalar (some q)) => .ok (some q)
  | some _ => .error .typeError

/-- `_generate_report_content` (lines 238-273): the three guarded summary
lines in order, then the detailed-analysis f-string, which formats
`gp_margin` with `:.2%` unconditionally (line 263) and raises `TypeError`
unless it is a plain number. -/
def generate_report_content (r : AnalysisResults) (log : List RecEntry) :
    Except PyErr ReportContent :=
  match fmtOpt r.cur_rate with
  | .error e => .error e
  | .ok cr =>
    match fmtOpt r.gp_margin with
    | .error e => .error e
    | .ok gm =>
      match fmtOpt r.op_margin with
      | .error e => .error e
      | .ok om =>
        match r.gp_margin with
        | some (.scalar (some gp)) =>
          .ok ⟨cr, gm, om, gp, glossary_terms, log⟩
        | _ => .error .typeError

/-- The two values `run_full_analysis` can return (lines 275-293). -/
inductive RunResult where
  | awaiting (missing : List (String × List String))
  | completed (report : ReportContent)
deriving Repr, DecidableEq

/-- `run_full_analysis` (lines 275-293): detect (an exception propagates);
early-exit on any missing items; otherwise analyze and assemble the
report. -/
def run_full_analysis (c : AgentCore) : Except PyErr RunResult :=
  match detect_missing_critical_items c with
  | .error e => .error e
  | .ok missing =>
    if !missing.isEmpty then .ok (.awaiting missing)
    else
      match analyze_financials c with
      | .error e => .error e
      | .ok r =>
        match generate_report_content r c.log with
        | .error e => .error e
        | .ok rep => .ok (.completed rep)

/-- Write `v` into row `a` at column `y` (`df.loc[a, y] = v`, lines 179/184). -/
def setCell (rows : List Row) (a : String) (y : Nat) (v : ℚ) : List Row :=
  rows.map (fun r =>
    if r.account == a && r.year == y then { r with amount := some v } else r)

/-- The write step shared by the BS and IS branches of `reconcile_data`
(lines 176-184 and 189-197): if the account is in the index, write at
`columns[-1]` (`IndexError` when there are no columns) and produce the log
entry — the entry only under a truthy `latest_col`; if the account is not in
the index, fall through silently with no write and no entry. -/
def reconWrite (fr : Frame) (stype a : String) (v : ℚ) :
    Except PyErr (Frame × Option RecEntry) :=
  if decide (a ∈ fr.index) then
    if fr.cols.isEmpty then .error .indexError
    else
      let latest := fr.cols.getLastD 0
      .ok ({ fr with rows := setCell fr.rows a latest v },
        if latest ≠ 0 then some ⟨stype, a, v, latest⟩ else none)
  else .ok (fr, none)

/-- Append the produced entry (if any) to the core's log (lines 189-199). -/
def appendLog (c : AgentCore) : Option RecEntry → AgentCore
  | some e => { c with log := c.log ++ [e] }
  | none => c

/-- `reconcile_data` (lines 173-199) together with the entry it appends to
the stored reconciliation log: the `HTTPException(400)` branch is reached
only when the statement type is neither a loaded BS nor a loaded IS. -/
def reconcile_data_ex (c : AgentCore) (stype item : String) (v : ℚ) :
    Except PyErr (AgentCore × Option RecEntry) :=
  if h : stype = "BS" ∧ c.bs_df.isSome then
    match reconWrite (c.bs_df.get h.2) stype item v with
    | .error e => .error e
    | .ok (fr', e?) => .ok (appendLog { c with bs_df := some fr' } e?, e?)
  else if h : stype = "IS" ∧ c.is_df.isSome then
    match reconWrite (c.is_df.get h.2) stype item v with
    | .error e => .error e
    | .ok (fr', e?) => .ok (appendLog { c with is_df := some fr' } e?, e?)
  else .error .httpErr400

/-- `reconcile_data` as the caller sees the core. -/
def reconcile_data (c : AgentCore) (stype item : String) (v : ℚ) :
    Except PyErr AgentCore :=
  (reconcile_data_ex c stype item v).map Prod.fst

/-- A project header (`ProjectHeader`, lines 71-77; `upload_date` is
wall-clock text with no effect on control flow). -/
structure ProjectHeader where
  user_id : String
  fiscal_year : Nat
  status : String
deriving Repr, DecidableEq

/-- `IN_MEMORY_DB` (lines 23-28), keyed by project id. `uuid.uuid4()` is
modelled by the fresh counter `next_id`: each upload takes a never-used id. -/
structure StoreDB where
  headers : List (Nat × ProjectHeader)
  line_items : List (Nat × List LineItem)
  rec_log : List (Nat × List RecEntry)
  next_id : Nat
deriving Repr, DecidableEq

/-- Dictionary lookup over an association list. -/
def alookup {α β : Type} [DecidableEq α] (k : α) : List (α × β) → Option β
  | [] => none
  | (k', v) :: rest => if k = k' then some v else alookup k rest

/-- Dictionary write: replace the binding of `k`, or append a new one. -/
def aset {α β : Type} [DecidableEq α] (k : α) (v : β) :
    List (α × β) → List (α × β)
  | [] => [(k, v)]
  | (k', v') :: rest =>
    if k = k' then (k, v) :: rest else (k', v') :: aset k v rest

/-- The empty in-memory store. -/
def initDB : StoreDB := ⟨[], [], [], 0⟩

/-- `_load_data_from_db` (lines 113-141): with no stored line items the
frames stay `None` and the log stays empty (the early return on line 118);
otherwise all three frames are the combined table and the stored log is
loaded. -/
def load_data_from_db (db : StoreDB) (pid : Nat) : AgentCore :=
  let items := (alookup pid db.line_items).getD []
  if items.isEmpty then ⟨none, none, none, []⟩
  else ⟨bs_df items, is_df items, cfs_df items, (alookup pid db.rec_log).getD []⟩

/-- `upload_financial_data` (lines 300-372), success path: the rows are the
`(account, amount-or-null)` pairs already parsed from the file's `항목` and
fiscal-year columns. A fresh project id is taken, the project's line items
are written from scratch — every one with the submitted statement type and
fiscal year — and the header is stored as `Uploaded`. -/
def upload_financial_data (db : StoreDB) (userId stype : String) (fy : Nat)
    (rows : List (String × Option ℚ)) : StoreDB × Nat :=
  let pid := db.next_id
  let items : List LineItem := rows.map (fun p => ⟨stype, p.1, fy, p.2⟩)
  ({ headers := aset pid ⟨userId, fy, "Uploaded"⟩ db.headers,
     line_items := aset pid items db.line_items,
     rec_log := db.rec_log,
     next_id := pid + 1 }, pid)

/-- Errors surfaced by the endpoints: 403 on the ownership check, 400 from a
caught reconcile failure or a premature report request, and an unhandled
exception escaping `run_full_analysis`. -/
inductive ApiErr where
  | forbidden
  | badRequest
  | internal (e : PyErr)
deriving Repr, DecidableEq

/-- The ownership check shared by the endpoints (lines 393-395 etc.). -/
def authCheck (db : StoreDB) (pid : Nat) (user : String) : Bool :=
  match alookup pid db.headers with
  | none => false
  | some h => h.user_id == user

/-- `POST /analyze/{project_id}` (lines 383-416): run the full analysis on a
freshly loaded core; on completion persist only the header status. -/
def analyze_endpoint (db : StoreDB) (pid : Nat) (user : String) :
    Except ApiErr (StoreDB × RunResult) :=
  if !authCheck db pid user then .error .forbidden
  else
    match run_full_analysis (load_data_from_db db pid) with
    | .error e => .error (.internal e)
    | .ok (.awaiting m) => .ok (db, .awaiting m)
    | .ok (.completed rep) =>
      let headers' :=
        match alookup pid db.headers with
        | some h => aset pid { h with status := "Completed" } db.headers
        | none => db.headers
      .ok ({ db with headers := headers' }, .completed rep)

/-- `PUT /reconcile-missing-data/{project_id}` (lines 419-443): reconcile on
a freshly loaded core. The produced audit entry is appended to the stored
reconciliation log (line 199); the line-item table is never written. -/
def reconcile_endpoint (db : StoreDB) (pid : Nat) (user stype item : String)
    (v : ℚ) : Except ApiErr (StoreDB × String) :=
  if !authCheck db pid user then .error .forbidden
  else
    match reconcile_data_ex (load_data_from_db db pid) stype item v with
    | .error _ => .error .badRequest
    | .ok (c', e?) =>
      match e? with
      | some _ => .ok ({ db with rec_log := aset pid c'.log db.rec_log }, "Reconciled")
      | none => .ok (db, "Reconciled")

/-- `GET /report/{project_id}` (lines 446-472): re-run the analysis; a
project still awaiting reconciliation is a 400; nothing is written. -/
def report_endpoint (db : StoreDB) (pid : Nat) (user : String) :
    Except ApiErr ReportContent :=
  if !authCheck db pid user then .error .forbidden
  else
    match run_full_analysis (load_data_from_db db pid) with
    | .error e => .error (.internal e)
    | .ok (.awaiting _) => .error .badRequest
    | .ok (.completed rep) => .ok rep

/-- The four public operations of the service. -/
inductive ApiOp where
  | upload (user stype : String) (fy : Nat) (rows : List (String × Option ℚ))
  | analyzeReq (pid : Nat) (user : String)
  | reconcileReq (pid : Nat) (user stype item : String) (v : ℚ)
  | reportReq (pid : Nat) (user : String)
deriving Repr, DecidableEq

/-- Whether an operation is an upload. -/
def ApiOp.isUpload : ApiOp → Bool
  | .upload _ _ _ _ => true
  | _ => false

/-- The store after one operation (an endpoint that raises leaves the store
as its partial writes left it; none of the endpoints writes before raising,
and `report_endpoint` writes nothing at all). -/
def applyOp (db : StoreDB) : ApiOp → StoreDB
  | .upload u st fy rows => (upload_financial_data db u st fy rows).1
  | .analyzeReq pid u =>
    match analyze_endpoint db pid u with
    | .ok (db', _) => db'
    | .error _ => db
  | .reconcileReq pid u st it v =>
    match reconcile_endpoint db pid u st it v with
    | .ok (db', _) => db'
    | .error _ => db
  | .reportReq _ _ => db

/-- The store reached from the empty store by a sequence of operations. -/
def runOps (ops : List ApiOp) : StoreDB := ops.foldl applyOp initDB

deriving instance DecidableEq for Except

/-- The index of an optional frame (empty when the frame is `None`). -/
def frameIndex : Option Frame → List String
  | none => []
  | some fr => fr.index

/-- All line items of one project share one statement type and one year. -/
def uniformItems (items : List LineItem) : Prop :=
  ∀ a ∈ items, ∀ b ∈ items,
    a.statement_type = b.statement_type ∧ a.year = b.year

/-- Store invariant: every project id is below the freshness counter and its
line items are uniform, and project ids are pairwise distinct. -/
def dbInv (db : StoreDB) : Prop :=
  (∀ p ∈ db.line_items, p.1 < db.next_id ∧ uniformItems p.2) ∧
  (db.line_items.map Prod.fst).Nodup

/-- The §8 scenario upload: a balance sheet whose only gap is a null
`단기차입금` row. -/
def c1_rows : List (String × Option ℚ) :=
  [("현금", some 100), ("매출채권", some 50), ("재고자산", some 30),
   ("단기차입금", none), ("자본금", some 10)]

/-- The store after uploading the scenario balance sheet for 2024. -/
def c1_db1 : StoreDB := (upload_financial_data initDB "u1" "BS" 2024 c1_rows).1

/-- The store after `Reconcile(BS, 단기차입금, 200)`: the audit entry is
recorded, the line items are untouched. -/
def c1_db2 : StoreDB :=
  { c1_db1 with rec_log := [(0, [⟨"BS", "단기차입금", 200, 2024⟩])] }

/-- A project holding one loaded account, for probing an unknown target. -/
def c2_items : List LineItem := [⟨"BS", "현금", 2024, some 100⟩]

/-- A project whose only line item is a non-null receivables row: no
mandatory account is in the index, many are never ingested. -/
def c3_items : List LineItem := [⟨"BS", "매출채권", 2024, some 100⟩]

/-- The same single-row project, as the input that slips past detection and
then crashes report generation. -/
def c4_items : List LineItem := [⟨"BS", "매출채권", 2024, some 100⟩]

/-- A balance sheet with cash, receivables and borrowings but no inventory
row at all. -/
def c5_items : List LineItem :=
  [⟨"BS", "현금", 2024, some 100⟩, ⟨"BS", "매출채권", 2024, some 50⟩,
   ⟨"BS", "단기차입금", 2024, some 40⟩]

/-- An income statement whose mandatory accounts are all filled but whose
SG&A row (not mandatory) is null. -/
def c6_items : List LineItem :=
  [⟨"IS", "매출액", 2024, some 100⟩, ⟨"IS", "매출원가", 2024, some 60⟩,
   ⟨"IS", "판관비", 2024, none⟩, ⟨"IS", "영업이익", 2024, some 10⟩]

/-- A balance sheet with zero short-term borrowings. -/
def c7_items : List LineItem :=
  [⟨"BS", "현금", 2024, some 100⟩, ⟨"BS", "매출채권", 2024, some 50⟩,
   ⟨"BS", "재고자산", 2024, some 30⟩, ⟨"BS", "단기차입금", 2024, some 0⟩]

/-- The C5 balance sheet extended with a present-but-null inventory row. -/
def c5_items_null_inv : List LineItem :=
  c5_items ++ [⟨"BS", "재고자산", 2024, none⟩]

/-! ### Supporting lemmas -/

theorem setCell_map_account (rows : List Row) (a : String) (y : Nat) (v : ℚ) :
    (setCell rows a y v).map Row.account = rows.map Row.account := by
  induction rows with
  | nil => rfl
  | cons r rs ih =>
    simp only [setCell, List.map_cons] at ih ⊢
    rw [ih]
    split <;> rfl

theorem index_setCell (fr : Frame) (a : String) (y : Nat) (v : ℚ) :
    ({ fr with rows := setCell fr.rows a y v } : Frame).index = fr.index := by
  simp [Frame.index, setCell_map_account]

theorem index_mkFrame (items : List LineItem) (fr : Frame)
    (h : mkFrame items = some fr) :
    fr.index = items.map LineItem.standard_account := by
  unfold mkFrame at h
  split at h
  · exact absurd h (by simp)
  · cases h
    simp [Frame.index, List.map_map]
    intro a _
    rfl

theorem reconWrite_not_mem (fr : Frame) (st a : String) (v : ℚ)
    (h : a ∉ fr.index) : reconWrite fr st a v = .ok (fr, none) := by
  unfold reconWrite
  rw [if_neg (by simpa using h)]

theorem reconcile_data_ex_bs (c : AgentCore) (fr : Frame) (item : String)
    (v : ℚ) (h : c.bs_df = some fr) :
    reconcile_data_ex c "BS" item v =
      match reconWrite fr "BS" item v with
      | .error e => .error e
      | .ok (fr', e?) => .ok (appendLog { c with bs_df := some fr' } e?, e?) := by
  obtain ⟨b, i, f, l⟩ := c
  simp only at h
  subst h
  rfl

theorem reconcile_data_ex_is (c : AgentCore) (fr : Frame) (item : String)
    (v : ℚ) (h : c.is_df = some fr) :
    reconcile_data_ex c "IS" item v =
      match reconWrite fr "IS" item v with
      | .error e => .error e
      | .ok (fr', e?) => .ok (appendLog { c with is_df := some fr' } e?, e?) := by
  obtain ⟨b, i, f, l⟩ := c
  simp only at h
  subst h
  rfl

theorem reconcile_data_ex_unrecognized (c : AgentCore) (stype item : String)
    (v : ℚ) (h1 : ¬(stype = "BS" ∧ c.bs_df.isSome))
    (h2 : ¬(stype = "IS" ∧ c.is_df.isSome)) :
    reconcile_data_ex c stype item v = .error .httpErr400 := by
  unfold reconcile_data_ex
  rw [dif_neg h1, dif_neg h2]

theorem alookup_mem {α β : Type} [DecidableEq α] (k : α) (v : β)
    (l : List (α × β)) (h : alookup k l = some v) : (k, v) ∈ l := by
  induction l with
  | nil => cases h
  | cons p rest ih =>
    obtain ⟨k', v'⟩ := p
    unfold alookup at h
    split at h
    · cases h
      subst_vars
      exact List.mem_cons_self _ _
    · exact List.mem_cons_of_mem _ (ih h)

theorem alookup_eq_none {α β : Type} [DecidableEq α] (k : α)
    (l : List (α × β)) (h : ∀ p ∈ l, p.1 ≠ k) : alookup k l = none := by
  induction l with
  | nil => rfl
  | cons p rest ih =>
    unfold alookup
    rw [if_neg fun hk => h p (List.mem_cons_self _ _) (by simp [← hk])]
    exact ih fun q hq => h q (List.mem_cons_of_mem _ hq)

theorem aset_not_mem {α β : Type} [DecidableEq α] (k : α) (v : β)
    (l : List (α × β)) (h : ∀ p ∈ l, p.1 ≠ k) : aset k v l = l ++ [(k, v)] := by
  induction l with
  | nil => rfl
  | cons p rest ih =>
    obtain ⟨k', v'⟩ := p
    unfold aset
    rw [if_neg fun hk => h (k', v') (List.mem_cons_self _ _) (by simp [hk])]
    rw [ih fun q hq => h q (List.mem_cons_of_mem _ hq)]
    rfl

theorem filter_ne_nil_iff {α : Type} (p : α → Bool) (l : List α) :
    l.filter p ≠ [] ↔ ∃ a ∈ l, p a = true := by
  induction l with
  | nil => simp
  | cons x xs ih =>
    by_cases h : p x = true
    · simp [List.filter_cons, h]
    · simp only [List.filter_cons, h, if_false, Bool.false_eq_true, ite_false, ih,
        List.mem_cons]
      constructor
      · rintro ⟨a, ha, hp⟩
        exact ⟨a, Or.inr ha, hp⟩
      · rintro ⟨a, ha | ha, hp⟩
        · exact absurd (ha ▸ hp) h
        · exact ⟨a, ha, hp⟩

theorem appendLog_frames (c : AgentCore) (e? : Option RecEntry) :
    (appendLog c e?).bs_df = c.bs_df ∧ (appendLog c e?).is_df = c.is_df ∧
      (appendLog c e?).cfs_df = c.cfs_df := by
  cases e? <;> exact ⟨rfl, rfl, rfl⟩

theorem reconWrite_ok_index (fr fr' : Frame) (st a : String) (v : ℚ)
    (e? : Option RecEntry) (h : reconWrite fr st a v = .ok (fr', e?)) :
    fr'.index = fr.index := by
  unfold reconWrite at h
  split at h
  · split at h
    · cases h
    · cases h
      exact index_setCell fr a (fr.cols.getLastD 0) v
  · cases h
    rfl

theorem analyze_endpoint_preserves (db : StoreDB) (pid : Nat) (u : String)
    (db' : StoreDB) (r : RunResult)
    (h : analyze_endpoint db pid u = .ok (db', r)) :
    db'.line_items = db.line_items ∧ db'.rec_log = db.rec_log ∧
      db'.next_id = db.next_id := by
  unfold analyze_endpoint at h
  split at h
  · cases h
  · split at h
    · cases h
    · cases h
      exact ⟨rfl, rfl, rfl⟩
    · cases h
      exact ⟨rfl, rfl, rfl⟩

theorem reconcile_endpoint_preserves (db : StoreDB) (pid : Nat)
    (u st it : String) (v : ℚ) (db' : StoreDB) (msg : String)
    (h : reconcile_endpoint db pid u st it v = .ok (db', msg)) :
    db'.line_items = db.line_items ∧ db'.headers = db.headers ∧
      db'.next_id = db.next_id := by
  unfold reconcile_endpoint at h
  split at h
  · cases h
  · split at h
    · cases h
    · split at h
      · cases h
        exact ⟨rfl, rfl, rfl⟩
      · cases h
        exact ⟨rfl, rfl, rfl⟩

theorem isEmpty_map {α β : Type} (f : α → β) (l : List α) :
    (l.map f).isEmpty = l.isEmpty := by
  cases l <;> rfl

theorem liquidityBlock_skip (fr : Frame) (h : liqGuard fr = false) :
    liquidityBlock (some fr) = .ok (none, none, none) := by
  simp only [liquidityBlock]
  rw [if_neg (by simp [h])]

theorem liquidityBlock_add_error (fr : Frame) (e : PyErr)
    (hg : liqGuard fr = true)
    (h : pyAdd (locRead fr "현금" (fr.cols.getLastD 0))
      (locRead fr "매출채권" (fr.cols.getLastD 0)) = .error e) :
    liquidityBlock (some fr) = .error e := by
  simp only [liquidityBlock]
  rw [if_pos hg, h]

theorem seriesZip_head_error
    (op : Option ℚ → Option ℚ → Except PyErr (Option ℚ))
    (x y : Option ℚ) (xs ys : List (Option ℚ)) (e : PyErr)
    (h : op x y = .error e) :
    seriesZip op (x :: xs) (y :: ys) = .error e := by
  unfold seriesZip
  rw [h]

theorem cells_not_both_some (r : Row) (a b : String)
    (hab : (a == b) = false) :
    addCells (if r.account == a then r.amount else none)
      (if r.account == b then r.amount else none) = .error .typeError := by
  by_cases h : (r.account == a) = true
  · have ha : r.account = a := eq_of_beq h
    have hb : (r.account == b) = false := by rw [ha]; exact hab
    rw [if_pos h, if_neg (by simp [hb])]
    cases r.amount <;> rfl
  · rw [if_neg h]
    cases (if r.account == b then r.amount else none) <;> rfl

theorem pyAdd_locRead_distinct (fr : Frame) (L : Nat) (a b : String)
    (hab : (a == b) = false) (hk : keptAt fr L ≠ []) :
    pyAdd (locRead fr a L) (locRead fr b L) = .error .typeError := by
  cases hks : keptAt fr L with
  | nil => exact absurd hks hk
  | cons r rest =>
    cases rest with
    | nil =>
      have ha : locRead fr a L =
          .scalar (if r.account == a then r.amount else none) := by
        simp [locRead, colCells, hks]
      have hb2 : locRead fr b L =
          .scalar (if r.account == b then r.amount else none) := by
        simp [locRead, colCells, hks]
      rw [ha, hb2]
      show (addCells _ _).map PyVal.scalar = .error .typeError
      rw [cells_not_both_some r a b hab]
      rfl
    | cons r2 rest2 =>
      have ha : locRead fr a L =
          .series ((if r.account == a then r.amount else none) ::
            ((r2 :: rest2).map
              (fun q => if q.account == a then q.amount else none))) := by
        simp [locRead, colCells, hks]
      have hb2 : locRead fr b L =
          .series ((if r.account == b then r.amount else none) ::
            ((r2 :: rest2).map
              (fun q => if q.account == b then q.amount else none))) := by
        simp [locRead, colCells, hks]
      rw [ha, hb2]
      show (seriesZip addCells _ _).map PyVal.series = .error .typeError
      rw [seriesZip_head_error addCells _ _ _ _ _
        (cells_not_both_some r a b hab)]
      rfl

theorem locCell_some_keptAt (fr : Frame) (a : String) (L : Nat) (x : ℚ)
    (h : locCell fr.rows a L = some x) : keptAt fr L ≠ [] := by
  unfold locCell at h
  cases hf : fr.rows.find? (fun r => r.account == a && r.year == L) with
  | none => rw [hf] at h; cases h
  | some r =>
    rw [hf] at h
    have h2 : r.amount = some x := h
    have hp := List.find?_some hf
    have hm := List.mem_of_find?_eq_some hf
    simp only [Bool.and_eq_true] at hp
    intro hemp
    have hin : r ∈ keptAt fr L := by
      simp only [keptAt, List.mem_filter, Bool.and_eq_true]
      exact ⟨hm, by simp [h2], hp.2⟩
    rw [hemp] at hin
    exact absurd hin (List.not_mem_nil r)

theorem getLastD_mem {α : Type} : ∀ (l : List α) (d : α), l ≠ [] →
    l.getLastD d ∈ l := by
  intro l
  induction l with
  | nil => intro d h; exact absurd rfl h
  | cons a t ih =>
    intro d _
    rw [List.getLastD_cons]
    cases t with
    | nil => simp
    | cons b t2 => exact List.mem_cons_of_mem a (ih a (by simp))

theorem getLastD_map {α β : Type} (f : α → β) :
    ∀ (l : List α) (d : α), (l.map f).getLastD (f d) = f (l.getLastD d) := by
  intro l
  induction l with
  | nil => intro d; rfl
  | cons a t ih =>
    intro d
    rw [List.map_cons, List.getLastD_cons, List.getLastD_cons, ih]

theorem keptAt_loaded_ne_nil (items : List LineItem)
    (h : keptYears items ≠ []) :
    keptAt (loadedFrame items) ((keptYears items).getLastD 0) ≠ [] := by
  have hks : items.filter (fun it => it.amount.isSome) ≠ [] := by
    intro h0
    exact h (by simp [keptYears, h0])
  have hmem : (items.filter (fun it => it.amount.isSome)).getLastD
      ⟨"", "", 0, none⟩ ∈ items.filter (fun it => it.amount.isSome) :=
    getLastD_mem _ _ hks
  have hL : (keptYears items).getLastD 0 =
      ((items.filter (fun it => it.amount.isSome)).getLastD
        ⟨"", "", 0, none⟩).year :=
    getLastD_map (fun it : LineItem => it.year) _ ⟨"", "", 0, none⟩
  have hprop := List.of_mem_filter hmem
  have hmem2 := List.mem_of_mem_filter hmem
  intro hemp
  have hin : ((items.filter (fun it => it.amount.isSome)).getLastD
      ⟨"", "", 0, none⟩).toRow ∈
      keptAt (loadedFrame items) ((keptYears items).getLastD 0) := by
    simp only [keptAt, loadedFrame, List.mem_filter, Bool.and_eq_true]
    refine ⟨List.mem_map_of_mem _ hmem2, hprop, ?_⟩
    rw [hL]
    exact beq_self_eq_true _
  rw [hemp] at hin
  exact absurd hin (List.not_mem_nil _)

theorem pdIsna_locRead_series (fr : Frame) (L : Nat) (a : String)
    (hk : (keptAt fr L).length ≠ 1) :
    pdIsnaBool (locRead fr a L) = .error .valueError := by
  cases hks : keptAt fr L with
  | nil => simp [locRead, colCells, hks, pdIsnaBool]
  | cons r rest =>
    cases rest with
    | nil => rw [hks] at hk; simp at hk
    | cons r2 rest2 => simp [locRead, colCells, hks, pdIsnaBool]

theorem locRead_of_singleton (fr : Frame) (L : Nat) (r : Row)
    (hks : keptAt fr L = [r]) (a : String) :
    locRead fr a L = .scalar (if r.account == a then r.amount else none) := by
  simp [locRead, colCells, hks]

theorem missingScan_err (fr : Frame) (L : Nat)
    (hk : (keptAt fr L).length ≠ 1) :
    ∀ crit : List String, (∃ a ∈ crit, a ∈ fr.index) →
      missingScan fr L crit = .error .valueError := by
  intro crit
  induction crit with
  | nil => rintro ⟨a, ha, -⟩; cases ha
  | cons c rest ih =>
    rintro ⟨a, ha, hidx⟩
    unfold missingScan
    by_cases hc : c ∈ fr.index
    · rw [if_pos (by simpa using hc), pdIsna_locRead_series fr L c hk]
    · rw [if_neg (by simpa using hc)]
      rcases List.mem_cons.mp ha with rfl | ha2
      · exact absurd hidx hc
      · exact ih ⟨a, ha2, hidx⟩

theorem missingScan_no_idx (fr : Frame) (L : Nat) :
    ∀ crit : List String, (∀ a ∈ crit, a ∉ fr.index) →
      missingScan fr L crit = .ok [] := by
  intro crit
  induction crit with
  | nil => intro _; rfl
  | cons c rest ih =>
    intro h
    unfold missingScan
    rw [if_neg (by simpa using h c (List.mem_cons_self _ _))]
    exact ih fun a ha => h a (List.mem_cons_of_mem _ ha)

theorem missingScan_scalar (fr : Frame) (L : Nat) (r : Row)
    (hks : keptAt fr L = [r]) :
    ∀ crit : List String, missingScan fr L crit =
      .ok (crit.filter (fun a => decide (a ∈ fr.index) &&
        (if r.account == a then r.amount else none).isNone)) := by
  intro crit
  induction crit with
  | nil => rfl
  | cons c rest ih =>
    unfold missingScan
    by_cases hc : c ∈ fr.index
    · rw [if_pos (by simpa using hc), locRead_of_singleton fr L r hks c]
      simp only [pdIsnaBool]
      rw [ih]
      simp only [List.filter_cons]
      by_cases hn : ((if r.account == c then r.amount else none).isNone) = true
      · simp [hc, hn]
      · simp [hc, hn]
    · rw [if_neg (by simpa using hc), ih]
      simp [List.filter_cons, hc]

theorem missingScan_error_inv (fr : Frame) (L : Nat) :
    ∀ (crit : List String) (e : PyErr), missingScan fr L crit = .error e →
      e = .valueError ∧ (keptAt fr L).length ≠ 1 ∧ ∃ a ∈ crit, a ∈ fr.index := by
  intro crit
  induction crit with
  | nil =>
    intro e h
    simp [missingScan] at h
  | cons c rest ih =>
    intro e h
    unfold missingScan at h
    by_cases hc : c ∈ fr.index
    · rw [if_pos (by simpa using hc)] at h
      cases hna : pdIsnaBool (locRead fr c L) with
      | error e2 =>
        rw [hna] at h
        have hval : e2 = .valueError := by
          cases hv : locRead fr c L with
          | scalar x =>
            rw [hv] at hna
            simp [pdIsnaBool] at hna
          | series xs =>
            rw [hv] at hna
            simp only [pdIsnaBool, Except.error.injEq] at hna
            exact hna.symm
        have hlen : (keptAt fr L).length ≠ 1 := by
          intro hl
          obtain ⟨r, hr⟩ := List.length_eq_one.mp hl
          rw [locRead_of_singleton fr L r hr c] at hna
          simp [pdIsnaBool] at hna
        have he : e2 = e := by simpa using h
        exact ⟨he ▸ hval, hlen, c, List.mem_cons_self _ _, hc⟩
      | ok b =>
        rw [hna] at h
        cases hrest : missingScan fr L rest with
        | error e3 =>
          rw [hrest] at h
          have he : e3 = e := by simpa using h
          obtain ⟨hev, hlen, a, ha, hidx⟩ := ih e3 hrest
          exact ⟨he ▸ hev, hlen, a, List.mem_cons_of_mem _ ha, hidx⟩
        | ok t =>
          rw [hrest] at h
          simp at h
    · rw [if_neg (by simpa using hc)] at h
      obtain ⟨hev, hlen, a, ha, hidx⟩ := ih e h
      exact ⟨hev, hlen, a, List.mem_cons_of_mem _ ha, hidx⟩

theorem keptYears_of_keptAt (items : List LineItem) (L : Nat)
    (h : keptAt (loadedFrame items) L ≠ []) : keptYears items ≠ [] := by
  obtain ⟨r, hr⟩ := List.exists_mem_of_ne_nil _ h
  simp only [keptAt, loadedFrame, List.mem_filter, Bool.and_eq_true] at hr
  obtain ⟨hmem, hsome, -⟩ := hr
  obtain ⟨it, hit, rfl⟩ := List.mem_map.mp hmem
  intro hky
  have hin : it ∈ items.filter (fun it => it.amount.isSome) :=
    List.mem_filter.mpr ⟨hit, by simpa [LineItem.toRow] using hsome⟩
  have hf : items.filter (fun it => it.amount.isSome) = [] :=
    List.map_eq_nil_iff.mp hky
  rw [hf] at hin
  exact absurd hin (List.not_mem_nil _)

theorem items_ne_of_keptYears (items : List LineItem)
    (h : keptYears items ≠ []) : items ≠ [] :=
  fun hi => h (by simp [keptYears, hi])

theorem mkFrame_eq_loaded (items : List LineItem) (h : items ≠ []) :
    mkFrame items = some (loadedFrame items) := by
  unfold mkFrame loadedFrame
  rw [if_neg (by simpa using h)]

theorem scalarCell_of_singleton (fr : Frame) (L : Nat) (r : Row)
    (hks : keptAt fr L = [r]) (a : String) :
    scalarCell fr a L = (if r.account == a then r.amount else none) := by
  simp [scalarCell, colCells, hks]

theorem missingOf_loaded (items : List LineItem) (crit : List String)
    (hk : keptYears items ≠ []) :
    missingOf (mkFrame items) crit =
      missingScan (loadedFrame items) ((keptYears items).getLastD 0) crit := by
  have hi : items ≠ [] := items_ne_of_keptYears items hk
  rw [mkFrame_eq_loaded items hi]
  simp only [missingOf]
  rw [if_neg (by simp [loadedFrame, isEmpty_map, hi, hk])]
  rfl

theorem missingOf_degenerate (items : List LineItem) (crit : List String)
    (h : items = [] ∨ keptYears items = []) :
    missingOf (mkFrame items) crit = .ok [] := by
  by_cases hi : items = []
  · subst hi
    rfl
  · rcases h with h | h
    · exact absurd h hi
    · rw [mkFrame_eq_loaded items hi]
      simp only [missingOf]
      rw [if_pos (by simp [loadedFrame, h])]

theorem detect_mkAgent_eq (items : List LineItem) (log : List RecEntry) :
    detect_missing_critical_items (mkAgent items log) =
      match missingOf (mkFrame items) CRITICAL_BS_ITEMS with
      | .error e => .error e
      | .ok missing_bs =>
        match missingOf (mkFrame items) CRITICAL_IS_ITEMS with
        | .error e => .error e
        | .ok missing_is =>
          .ok ((if missing_bs.isEmpty then [] else [("BS", missing_bs)])
            ++ (if missing_is.isEmpty then [] else [("IS", missing_is)])) := rfl

theorem detect_of_bs_err (items : List LineItem) (log : List RecEntry)
    (e : PyErr)
    (h : missingOf (mkFrame items) CRITICAL_BS_ITEMS = .error e) :
    detect_missing_critical_items (mkAgent items log) = .error e := by
  simp only [detect_mkAgent_eq, h]

theorem detect_of_is_err (items : List LineItem) (log : List RecEntry)
    (mb : List String) (e : PyErr)
    (hb : missingOf (mkFrame items) CRITICAL_BS_ITEMS = .ok mb)
    (h : missingOf (mkFrame items) CRITICAL_IS_ITEMS = .error e) :
    detect_missing_critical_items (mkAgent items log) = .error e := by
  simp only [detect_mkAgent_eq, hb, h]

theorem detect_of_ok (items : List LineItem) (log : List RecEntry)
    (mb mi : List String)
    (hb : missingOf (mkFrame items) CRITICAL_BS_ITEMS = .ok mb)
    (hi : missingOf (mkFrame items) CRITICAL_IS_ITEMS = .ok mi) :
    detect_missing_critical_items (mkAgent items log) =
      .ok ((if mb.isEmpty then [] else [("BS", mb)])
        ++ (if mi.isEmpty then [] else [("IS", mi)])) := by
  simp only [detect_mkAgent_eq, hb, hi]

theorem alookup_shape_bs (mb mi : List String) :
    (alookup "BS" ((if mb.isEmpty then [] else [("BS", mb)]) ++
      (if mi.isEmpty then [] else [("IS", mi)]))).isSome = true ↔ mb ≠ [] := by
  by_cases hb : mb.isEmpty
  · have hmb : mb = [] := by simpa using hb
    subst hmb
    by_cases hi : mi.isEmpty <;> simp [hi, alookup]
  · have hne : mb ≠ [] := by simpa using hb
    simp [hb, alookup, hne]

theorem alookup_shape_is (mb mi : List String) :
    (alookup "IS" ((if mb.isEmpty then [] else [("BS", mb)]) ++
      (if mi.isEmpty then [] else [("IS", mi)]))).isSome = true ↔ mi ≠ [] := by
  by_cases hi : mi.isEmpty
  · have hmi : mi = [] := by simpa using hi
    subst hmi
    by_cases hb : mb.isEmpty <;> simp [hb, alookup]
  · have hne : mi ≠ [] := by simpa using hi
    by_cases hb : mb.isEmpty <;> simp [hb, hi, alookup, hne]

theorem alookup_shape_cfs (mb mi : List String) :
    alookup "CFS" ((if mb.isEmpty then [] else [("BS", mb)]) ++
      (if mi.isEmpty then [] else [("IS", mi)])) = none := by
  by_cases hb : mb.isEmpty <;> by_cases hi : mi.isEmpty <;>
    simp [hb, hi, alookup]

theorem toRow_retype (f : LineItem → String) (items : List LineItem) :
    (items.map fun it => { it with statement_type := f it }).map
        LineItem.toRow = items.map LineItem.toRow := by
  induction items with
  | nil => rfl
  | cons it its ih =>
    obtain ⟨st, acc, yr, amt⟩ := it
    simp_all [LineItem.toRow]

theorem keptYears_retype (f : LineItem → String) (items : List LineItem) :
    keptYears (items.map fun it => { it with statement_type := f it }) =
      keptYears items := by
  induction items with
  | nil => rfl
  | cons it its ih =>
    obtain ⟨st, acc, yr, amt⟩ := it
    cases amt <;> simp_all [keptYears, List.filter_cons]

/-! ### The claims -/

/-- C1: the §8 scenario run against the endpoints. `Analyze` on the uploaded
project does not return `AwaitingReconciliation`: its four non-null items
give four columns labeled 2024, `loc['현금', 2024]` is a Series, and the
detector raises `ValueError` in a boolean context, so the endpoint fails.
`Reconcile(BS, 단기차입금, 200)` succeeds and appends the audit entry — but
only to the request-scoped frame and the audit log, never to the stored
line items — and the subsequent `Analyze` fails the same way; at no point
is the reconciled value durably recorded or a `Completed` result
produced. -/
theorem c1_scenario_crashes_and_write_lost :
    analyze_endpoint c1_db1 0 "u1" = .error (.internal .valueError) ∧
    reconcile_endpoint c1_db1 0 "u1" "BS" "단기차입금" 200 =
      .ok (c1_db2, "Reconciled") ∧
    alookup 0 c1_db2.rec_log = some [⟨"BS", "단기차입금", 200, 2024⟩] ∧
    c1_db2.line_items = c1_db1.line_items ∧
    analyze_endpoint c1_db2 0 "u1" = .error (.internal .valueError) := by
  decide

/-- C2 counterexample: reconciling the account `외상매입금`, which is not in
the loaded balance sheet's index, does not fail with any error — the call
returns the core unchanged (and the endpoint reports success), refuting
"always fails with an UnknownAccount error". No line item is created. -/
theorem c2_unknown_account_silently_ok :
    reconcile_data (mkAgent c2_items []) "BS" "외상매입금" 50 =
      .ok (mkAgent c2_items []) ∧
    "외상매입금" ∉ c2_items.map LineItem.standard_account := by
  decide

/-- C4: an input on which `run()` has a third outcome. The project's only
line item is a non-null receivables row, so detection reports nothing, but
the profitability inputs are absent, `gp_margin` is `None`, and report
generation raises `TypeError` from the unguarded `:.2%` format — `run()`
neither awaits nor completes. -/
theorem c4_report_generation_type_error :
    detect_missing_critical_items (mkAgent c4_items []) = .ok [] ∧
    analyze_financials (mkAgent c4_items []) =
      .ok ⟨none, none, none, none, none, "데이터 부족"⟩ ∧
    run_full_analysis (mkAgent c4_items []) = .error .typeError := by
  decide

/-- C6: the margins are never reported as the claim describes. On an income
statement whose three mandatory accounts are filled and whose SG&A row is
null, `run()` raises `ValueError` in the detector (`pd.isna` of a length-3
Series at `매출액`), so the margins are neither null nor numeric; and even
the analyzer itself, whose line-220 guard passes, raises `TypeError` from
the Series/`None` subtraction `revenue - cogs` — the intended
null-when-absent / numeric-when-present contract is unimplemented. -/
theorem c6_margins_never_reported :
    run_full_analysis (mkAgent c6_items []) = .error .valueError ∧
    analyze_financials (mkAgent c6_items []) = .error .typeError := by
  decide

/-- C5 counterexample: with cash, receivables and borrowings present but the
inventory account entirely absent from the index, the liquidity guard fails
and `유동비율` is `None` — the current ratio is not produced with inventory
defaulted to 0, refuting the claimed asymmetric default. -/
theorem c5_absent_inventory_no_default :
    analyze_financials (mkAgent c5_items []) =
      .ok ⟨none, none, none, none, none, "데이터 부족"⟩ ∧
    "재고자산" ∉ c5_items.map LineItem.standard_account ∧
    "현금" ∈ c5_items.map LineItem.standard_account ∧
    "매출채권" ∈ c5_items.map LineItem.standard_account ∧
    "단기차입금" ∈ c5_items.map LineItem.standard_account := by
  decide

/-- C3 counterexample: the project has a (non-null) BS line item, and the
mandatory account `현금` was never ingested, yet `Detect` reports nothing at
all — a never-ingested mandatory account is not treated as absent, refuting
"absent covers both accounts never ingested at all and accounts present with
a null amount". -/
theorem c3_never_ingested_not_reported :
    detect_missing_critical_items (mkAgent c3_items []) = .ok [] ∧
    "현금" ∈ CRITICAL_BS_ITEMS ∧
    c3_items ≠ [] ∧
    (∀ it ∈ c3_items, it.statement_type = "BS") ∧
    "현금" ∉ c3_items.map LineItem.standard_account := by
  decide

/-- C9: loading ignores the stored statement type entirely — the BS, IS and
CFS frames are one and the same combined table, rewriting every item's
statement type changes nothing, and the shared index holds every ingested
account, so each statement sees all accounts. -/
theorem c9_statement_type_never_separates :
    (∀ items : List LineItem,
      bs_df items = is_df items ∧ is_df items = cfs_df items) ∧
    (∀ (items : List LineItem) (f : LineItem → String),
      bs_df (items.map fun it => { it with statement_type := f it }) =
        bs_df items) ∧
    (∀ (items : List LineItem) (fr : Frame), bs_df items = some fr →
      fr.index = items.map LineItem.standard_account) := by
  refine ⟨fun items => ⟨rfl, rfl⟩, fun items f => ?_,
    fun items fr h => index_mkFrame items fr h⟩
  simp only [bs_df, mkFrame, isEmpty_map, toRow_retype, keptYears_retype]

/-- C5 amended: if the inventory account is entirely absent from the index,
the whole liquidity guard fails and `유동비율` is null — the inventory
default-to-0 fallback is never exercised; and when inventory is present but
null (with the other accounts readable), the analyzer raises `TypeError`
rather than propagating null. -/
theorem c5_amended_inventory_gate :
    (∀ (c : AgentCore) (fr : Frame) (r : AnalysisResults),
      c.bs_df = some fr → "재고자산" ∉ fr.index →
      analyze_financials c = .ok r → r.cur_rate = none) ∧
    (∀ (c : AgentCore) (fr : Frame) (cash recv : ℚ),
      c.bs_df = some fr → liqGuard fr = true →
      locCell fr.rows "현금" (fr.cols.getLastD 0) = some cash →
      locCell fr.rows "매출채권" (fr.cols.getLastD 0) = some recv →
      locCell fr.rows "재고자산" (fr.cols.getLastD 0) = none →
      analyze_financials c = .error .typeError) := by
  constructor
  · intro c fr r hbs hinv hok
    have hg : liqGuard fr = false := by
      have hd : decide ("재고자산" ∈ fr.index) = false := decide_eq_false hinv
      simp [liqGuard, hd]
    unfold analyze_financials at hok
    rw [hbs, liquidityBlock_skip fr hg] at hok
    cases hp : profitBlock c.is_df with
    | error e =>
      rw [hp] at hok
      simp at hok
    | ok q =>
      obtain ⟨gp, op⟩ := q
      rw [hp] at hok
      simp only [Except.ok.injEq] at hok
      rw [← hok]
  · intro c fr cash recv hbs hg hc hr hi
    have hk := locCell_some_keptAt fr "현금" (fr.cols.getLastD 0) cash hc
    have hadd := pyAdd_locRead_distinct fr (fr.cols.getLastD 0) "현금" "매출채권"
      (by decide) hk
    unfold analyze_financials
    rw [hbs, liquidityBlock_add_error fr .typeError hg hadd]

/-- C5 amended, exercised at concrete inputs. -/
theorem c5_amended_inventory_gate_witness :
    (analyze_financials (mkAgent c5_items []) =
        .ok ⟨none, none, none, none, none, "데이터 부족"⟩ →
      (⟨none, none, none, none, none, "데이터 부족"⟩ :
        AnalysisResults).cur_rate = none) ∧
    analyze_financials (mkAgent c5_items_null_inv []) =
      .error .typeError := by
  constructor
  · intro h
    exact c5_amended_inventory_gate.1 (mkAgent c5_items [])
      (⟨c5_items.map LineItem.toRow, keptYears c5_items⟩ : Frame) _ (by decide)
      (by decide) h
  · exact c5_amended_inventory_gate.2 (mkAgent c5_items_null_inv [])
      (⟨c5_items_null_inv.map LineItem.toRow, keptYears c5_items_null_inv⟩ : Frame)
      100 50 (by decide) (by decide) (by decide) (by decide) (by decide)

/-- C7 counterexample: the §8-style balance sheet whose short-term
borrowings are exactly 0. The engine never reports `current_ratio = 0`:
`run()` dies with `ValueError` in the detector (`pd.isna` of a
four-element Series at `현금`), and the analyzer itself, whose liquidity
guard passes, dies with `TypeError` in the Series addition
`현금 + 매출채권` before the guarded division is ever reached. -/
theorem c7_zero_borrowings_crash :
    run_full_analysis (mkAgent c7_items []) = .error .valueError ∧
    analyze_financials (mkAgent c7_items []) = .error .typeError ∧
    (⟨"BS", "단기차입금", 2024, some 0⟩ : LineItem) ∈ c7_items := by
  decide

/-- C7 amended: the division `current_assets / short_term_borrowings` is
indeed never evaluated with a zero divisor — but only because it is never
evaluated at all. Whenever the liquidity guard passes on a loaded balance
sheet, the analyzer raises `TypeError` at the `현금 + 매출채권` addition,
before any truthiness test or division; and the truthiness guard of the
conditional expression can only pass on a non-zero scalar, so a division
that were reached would have a non-zero divisor. -/
theorem c7_amended_no_division :
    (∀ (c : AgentCore) (items : List LineItem),
      c.bs_df = some (loadedFrame items) →
      liqGuard (loadedFrame items) = true →
      analyze_financials c = .error .typeError) ∧
    (∀ b : PyVal, pyTruthyVal b = .ok true →
      ∃ q : ℚ, b = .scalar (some q) ∧ q ≠ 0) := by
  constructor
  · intro c items hbs hg
    have hk : keptYears items ≠ [] := by
      intro hke
      simp [liqGuard, pyTruthyNat, latestColOf, loadedFrame, hke] at hg
    have hkept := keptAt_loaded_ne_nil items hk
    have hadd := pyAdd_locRead_distinct (loadedFrame items)
      ((keptYears items).getLastD 0) "현금" "매출채권" (by decide) hkept
    unfold analyze_financials
    rw [hbs, liquidityBlock_add_error (loadedFrame items) .typeError hg hadd]
  · intro b hb
    cases b with
    | scalar x =>
      cases x with
      | none => simp [pyTruthyVal] at hb
      | some q =>
        refine ⟨q, rfl, ?_⟩
        simp only [pyTruthyVal, Except.ok.injEq] at hb
        simpa using hb
    | series xs => simp [pyTruthyVal] at hb

/-- C7 amended, exercised at the zero-borrowings project and at a concrete
truthy scalar. -/
theorem c7_amended_no_division_witness :
    analyze_financials (mkAgent c7_items []) = .error .typeError ∧
    ∃ q : ℚ, PyVal.scalar (some 3) = PyVal.scalar (some q) ∧ q ≠ 0 := by
  constructor
  · exact c7_amended_no_division.1 (mkAgent c7_items []) c7_items (by decide)
      (by decide)
  · exact c7_amended_no_division.2 (.scalar (some 3)) (by decide)

/-- C2 amended: the 400 error is raised exactly when the statement type is
not a loaded BS or IS; reconciling an unknown account of a loaded BS or IS
silently succeeds without changing anything; and no successful call ever
adds an account to any frame (no LineItem is created). -/
theorem c2_amended_reconcile_contract :
    (∀ (c : AgentCore) (stype item : String) (v : ℚ),
      ¬(stype = "BS" ∧ c.bs_df.isSome) → ¬(stype = "IS" ∧ c.is_df.isSome) →
      reconcile_data c stype item v = .error .httpErr400) ∧
    (∀ (c : AgentCore) (fr : Frame) (item : String) (v : ℚ),
      c.bs_df = some fr → item ∉ fr.index →
      reconcile_data c "BS" item v = .ok c) ∧
    (∀ (c : AgentCore) (fr : Frame) (item : String) (v : ℚ),
      c.is_df = some fr → item ∉ fr.index →
      reconcile_data c "IS" item v = .ok c) ∧
    (∀ (c c' : AgentCore) (stype item : String) (v : ℚ),
      reconcile_data c stype item v = .ok c' →
      frameIndex c'.bs_df = frameIndex c.bs_df ∧
      frameIndex c'.is_df = frameIndex c.is_df ∧
      frameIndex c'.cfs_df = frameIndex c.cfs_df) := by
  refine ⟨?_, ?_, ?_, ?_⟩
  · intro c st it v h1 h2
    unfold reconcile_data
    rw [reconcile_data_ex_unrecognized c st it v h1 h2]
    rfl
  · intro c fr it v hbs hnot
    unfold reconcile_data
    rw [reconcile_data_ex_bs c fr it v hbs, reconWrite_not_mem fr "BS" it v hnot]
    obtain ⟨b, i, cf, l⟩ := c
    simp only at hbs
    subst hbs
    rfl
  · intro c fr it v his hnot
    unfold reconcile_data
    rw [reconcile_data_ex_is c fr it v his, reconWrite_not_mem fr "IS" it v hnot]
    obtain ⟨b, i, cf, l⟩ := c
    simp only at his
    subst his
    rfl
  · intro c c' st it v h
    unfold reconcile_data at h
    cases hex : reconcile_data_ex c st it v with
    | error e =>
      rw [hex] at h
      cases h
    | ok p =>
      obtain ⟨c₀, e?⟩ := p
      rw [hex] at h
      simp only [Except.map, Except.ok.injEq] at h
      subst h
      by_cases h1 : st = "BS" ∧ c.bs_df.isSome
      · obtain ⟨hst, hsome⟩ := h1
        subst hst
        obtain ⟨fr, hfr⟩ := Option.isSome_iff_exists.mp hsome
        rw [reconcile_data_ex_bs c fr it v hfr] at hex
        cases hw : reconWrite fr "BS" it v with
        | error e =>
          rw [hw] at hex
          cases hex
        | ok q =>
          obtain ⟨fr', e2⟩ := q
          rw [hw] at hex
          simp only [Except.ok.injEq, Prod.mk.injEq] at hex
          obtain ⟨hc0, -⟩ := hex
          subst hc0
          obtain ⟨hb, hi, hcf⟩ := appendLog_frames { c with bs_df := some fr' } e2
          rw [hb, hi, hcf]
          refine ⟨?_, rfl, rfl⟩
          simp only [frameIndex, hfr]
          exact reconWrite_ok_index fr fr' "BS" it v e2 hw
      · by_cases h2 : st = "IS" ∧ c.is_df.isSome
        · obtain ⟨hst, hsome⟩ := h2
          subst hst
          obtain ⟨fr, hfr⟩ := Option.isSome_iff_exists.mp hsome
          rw [reconcile_data_ex_is c fr it v hfr] at hex
          cases hw : reconWrite fr "IS" it v with
          | error e =>
            rw [hw] at hex
            cases hex
          | ok q =>
            obtain ⟨fr', e2⟩ := q
            rw [hw] at hex
            simp only [Except.ok.injEq, Prod.mk.injEq] at hex
            obtain ⟨hc0, -⟩ := hex
            subst hc0
            obtain ⟨hb, hi, hcf⟩ := appendLog_frames { c with is_df := some fr' } e2
            rw [hb, hi, hcf]
            refine ⟨rfl, ?_, rfl⟩
            simp only [frameIndex, hfr]
            exact reconWrite_ok_index fr fr' "IS" it v e2 hw
        · rw [reconcile_data_ex_unrecognized c st it v h1 h2] at hex
          cases hex

/-- C2 amended, exercised at concrete inputs. -/
theorem c2_amended_reconcile_contract_witness :
    reconcile_data (mkAgent c2_items []) "CFS" "현금" 10 =
      .error .httpErr400 ∧
    reconcile_data (mkAgent c2_items []) "IS" "외상매입금" 50 =
      .ok (mkAgent c2_items []) := by
  constructor
  · exact c2_amended_reconcile_contract.1 (mkAgent c2_items []) "CFS" "현금" 10
      (by decide) (by decide)
  · exact c2_amended_reconcile_contract.2.2.1 (mkAgent c2_items [])
      (⟨c2_items.map LineItem.toRow, keptYears c2_items⟩ : Frame) "외상매입금" 50
      (by decide) (by decide)

/-- C3 amended: the detector of the loaded (duplicate-column) frames. It
raises `ValueError` exactly when the project has at least one non-null
amount, the number of kept columns labeled with the latest year differs
from one, and some mandatory BS or IS account is among the ingested
accounts; an all-null or empty project yields no entry at all; in the
single-kept-column regime a BS (resp. IS) entry appears exactly when some
mandatory account of that list is in the index with a null cell at the
latest column — accounts never ingested are not reported; and CFS never
yields an entry even though its mandatory list is non-empty. -/
theorem c3_amended_detector_semantics :
    (∀ (items : List LineItem) (log : List RecEntry) (e : PyErr),
      detect_missing_critical_items (mkAgent items log) = .error e ↔
        (e = .valueError ∧ keptYears items ≠ [] ∧
          (keptAt (loadedFrame items)
            ((keptYears items).getLastD 0)).length ≠ 1 ∧
          ∃ a ∈ CRITICAL_BS_ITEMS ++ CRITICAL_IS_ITEMS,
            a ∈ items.map LineItem.standard_account)) ∧
    (∀ (items : List LineItem) (log : List RecEntry),
      keptYears items = [] →
      detect_missing_critical_items (mkAgent items log) = .ok []) ∧
    (∀ (items : List LineItem) (log : List RecEntry)
        (m : List (String × List String)) (r : Row),
      detect_missing_critical_items (mkAgent items log) = .ok m →
      keptAt (loadedFrame items) ((keptYears items).getLastD 0) = [r] →
      ((alookup "BS" m).isSome = true ↔
        ∃ a ∈ CRITICAL_BS_ITEMS, a ∈ items.map LineItem.standard_account ∧
          scalarCell (loadedFrame items) a ((keptYears items).getLastD 0) =
            none)) ∧
    (∀ (items : List LineItem) (log : List RecEntry)
        (m : List (String × List String)) (r : Row),
      detect_missing_critical_items (mkAgent items log) = .ok m →
      keptAt (loadedFrame items) ((keptYears items).getLastD 0) = [r] →
      ((alookup "IS" m).isSome = true ↔
        ∃ a ∈ CRITICAL_IS_ITEMS, a ∈ items.map LineItem.standard_account ∧
          scalarCell (loadedFrame items) a ((keptYears items).getLastD 0) =
            none)) ∧
    (∀ (items : List LineItem) (log : List RecEntry)
        (m : List (String × List String)),
      detect_missing_critical_items (mkAgent items log) = .ok m →
      alookup "CFS" m = none) := by
  refine ⟨?_, ?_, ?_, ?_, ?_⟩
  · intro items log e
    constructor
    · intro h
      by_cases hk : keptYears items = []
      · rw [detect_of_ok items log [] []
          (missingOf_degenerate items CRITICAL_BS_ITEMS (Or.inr hk))
          (missingOf_degenerate items CRITICAL_IS_ITEMS (Or.inr hk))] at h
        simp at h
      · have hi := items_ne_of_keptYears items hk
        have hbs := missingOf_loaded items CRITICAL_BS_ITEMS hk
        have his := missingOf_loaded items CRITICAL_IS_ITEMS hk
        have hidxeq := index_mkFrame items _ (mkFrame_eq_loaded items hi)
        cases hb : missingScan (loadedFrame items)
            ((keptYears items).getLastD 0) CRITICAL_BS_ITEMS with
        | error e2 =>
          obtain ⟨hev, hlen, a, ha, hidx⟩ :=
            missingScan_error_inv _ _ CRITICAL_BS_ITEMS e2 hb
          rw [detect_of_bs_err items log e2 (hbs.trans hb)] at h
          have he : e2 = e := by simpa using h
          subst he
          refine ⟨hev, hk, hlen, a, List.mem_append_left _ ha, ?_⟩
          rw [← hidxeq]
          exact hidx
        | ok mb =>
          cases hi2 : missingScan (loadedFrame items)
              ((keptYears items).getLastD 0) CRITICAL_IS_ITEMS with
          | error e2 =>
            obtain ⟨hev, hlen, a, ha, hidx⟩ :=
              missingScan_error_inv _ _ CRITICAL_IS_ITEMS e2 hi2
            rw [detect_of_is_err items log mb e2 (hbs.trans hb)
              (his.trans hi2)] at h
            have he : e2 = e := by simpa using h
            subst he
            refine ⟨hev, hk, hlen, a, List.mem_append_right _ ha, ?_⟩
            rw [← hidxeq]
            exact hidx
          | ok mi =>
            rw [detect_of_ok items log mb mi (hbs.trans hb)
              (his.trans hi2)] at h
            simp at h
    · rintro ⟨hev, hk, hlen, a, ha, hidx⟩
      subst hev
      have hi := items_ne_of_keptYears items hk
      have hbs := missingOf_loaded items CRITICAL_BS_ITEMS hk
      have his := missingOf_loaded items CRITICAL_IS_ITEMS hk
      have hidxeq := index_mkFrame items _ (mkFrame_eq_loaded items hi)
      have hidx2 : a ∈ (loadedFrame items).index := by
        rw [hidxeq]
        exact hidx
      rcases List.mem_append.mp ha with haBS | haIS
      · exact detect_of_bs_err items log _ (hbs.trans
          (missingScan_err _ _ hlen CRITICAL_BS_ITEMS ⟨a, haBS, hidx2⟩))
      · cases hb : missingScan (loadedFrame items)
            ((keptYears items).getLastD 0) CRITICAL_BS_ITEMS with
        | error e2 =>
          have hev2 := (missingScan_error_inv _ _ CRITICAL_BS_ITEMS e2 hb).1
          rw [hev2] at hb
          exact detect_of_bs_err items log _ (hbs.trans hb)
        | ok mb =>
          exact detect_of_is_err items log mb _ (hbs.trans hb) (his.trans
            (missingScan_err _ _ hlen CRITICAL_IS_ITEMS ⟨a, haIS, hidx2⟩))
  · intro items log hk
    rw [detect_of_ok items log [] []
      (missingOf_degenerate items CRITICAL_BS_ITEMS (Or.inr hk))
      (missingOf_degenerate items CRITICAL_IS_ITEMS (Or.inr hk))]
    rfl
  · intro items log m r hok hks
    have hkA : keptAt (loadedFrame items) ((keptYears items).getLastD 0)
        ≠ [] := by
      rw [hks]
      simp
    have hk : keptYears items ≠ [] := keptYears_of_keptAt items _ hkA
    have hi := items_ne_of_keptYears items hk
    have hidxeq := index_mkFrame items _ (mkFrame_eq_loaded items hi)
    have hsb := (missingOf_loaded items CRITICAL_BS_ITEMS hk).trans
      (missingScan_scalar (loadedFrame items) _ r hks CRITICAL_BS_ITEMS)
    have hsi := (missingOf_loaded items CRITICAL_IS_ITEMS hk).trans
      (missingScan_scalar (loadedFrame items) _ r hks CRITICAL_IS_ITEMS)
    rw [detect_of_ok items log _ _ hsb hsi] at hok
    injection hok with hm
    subst hm
    rw [alookup_shape_bs, filter_ne_nil_iff]
    constructor
    · rintro ⟨a, ha, hp⟩
      simp only [Bool.and_eq_true, decide_eq_true_eq,
        Option.isNone_iff_eq_none] at hp
      obtain ⟨hmem, hcell⟩ := hp
      refine ⟨a, ha, ?_, ?_⟩
      · rw [← hidxeq]
        exact hmem
      · rw [scalarCell_of_singleton (loadedFrame items) _ r hks a]
        exact hcell
    · rintro ⟨a, ha, hmem, hcell⟩
      refine ⟨a, ha, ?_⟩
      simp only [Bool.and_eq_true, decide_eq_true_eq,
        Option.isNone_iff_eq_none]
      refine ⟨?_, ?_⟩
      · rw [hidxeq]
        exact hmem
      · rw [← scalarCell_of_singleton (loadedFrame items) _ r hks a]
        exact hcell
  · intro items log m r hok hks
    have hkA : keptAt (loadedFrame items) ((keptYears items).getLastD 0)
        ≠ [] := by
      rw [hks]
      simp
    have hk : keptYears items ≠ [] := keptYears_of_keptAt items _ hkA
    have hi := items_ne_of_keptYears items hk
    have hidxeq := index_mkFrame items _ (mkFrame_eq_loaded items hi)
    have hsb := (missingOf_loaded items CRITICAL_BS_ITEMS hk).trans
      (missingScan_scalar (loadedFrame items) _ r hks CRITICAL_BS_ITEMS)
    have hsi := (missingOf_loaded items CRITICAL_IS_ITEMS hk).trans
      (missingScan_scalar (loadedFrame items) _ r hks CRITICAL_IS_ITEMS)
    rw [detect_of_ok items log _ _ hsb hsi] at hok
    injection hok with hm
    subst hm
    rw [alookup_shape_is, filter_ne_nil_iff]
    constructor
    · rintro ⟨a, ha, hp⟩
      simp only [Bool.and_eq_true, decide_eq_true_eq,
        Option.isNone_iff_eq_none] at hp
      obtain ⟨hmem, hcell⟩ := hp
      refine ⟨a, ha, ?_, ?_⟩
      · rw [← hidxeq]
        exact hmem
      · rw [scalarCell_of_singleton (loadedFrame items) _ r hks a]
        exact hcell
    · rintro ⟨a, ha, hmem, hcell⟩
      refine ⟨a, ha, ?_⟩
      simp only [Bool.and_eq_true, decide_eq_true_eq,
        Option.isNone_iff_eq_none]
      refine ⟨?_, ?_⟩
      · rw [hidxeq]
        exact hmem
      · rw [← scalarCell_of_singleton (loadedFrame items) _ r hks a]
        exact hcell
  · intro items log m hok
    by_cases hk : keptYears items = []
    · rw [detect_of_ok items log [] []
        (missingOf_degenerate items CRITICAL_BS_ITEMS (Or.inr hk))
        (missingOf_degenerate items CRITICAL_IS_ITEMS (Or.inr hk))] at hok
      injection hok with hm
      subst hm
      rfl
    · have hbs := missingOf_loaded items CRITICAL_BS_ITEMS hk
      have his := missingOf_loaded items CRITICAL_IS_ITEMS hk
      cases hb : missingScan (loadedFrame items)
          ((keptYears items).getLastD 0) CRITICAL_BS_ITEMS with
      | error e2 =>
        rw [detect_of_bs_err items log e2 (hbs.trans hb)] at hok
        simp at hok
      | ok mb =>
        cases hi2 : missingScan (loadedFrame items)
            ((keptYears items).getLastD 0) CRITICAL_IS_ITEMS with
        | error e2 =>
          rw [detect_of_is_err items log mb e2 (hbs.trans hb)
            (his.trans hi2)] at hok
          simp at hok
        | ok mi =>
          rw [detect_of_ok items log mb mi (hbs.trans hb)
            (his.trans hi2)] at hok
          injection hok with hm
          subst hm
          exact alookup_shape_cfs mb mi

theorem upload_items_uniform (st : String) (fy : Nat)
    (rows : List (String × Option ℚ)) :
    uniformItems (rows.map fun p => (⟨st, p.1, fy, p.2⟩ : LineItem)) := by
  intro a ha b hb
  simp only [List.mem_map] at ha hb
  obtain ⟨p, -, rfl⟩ := ha
  obtain ⟨q, -, rfl⟩ := hb
  exact ⟨rfl, rfl⟩

theorem dbInv_applyOp (db : StoreDB) (op : ApiOp) (h : dbInv db) :
    dbInv (applyOp db op) := by
  obtain ⟨hb, hn⟩ := h
  cases op with
  | upload u st fy rows =>
    have hfresh : ∀ p ∈ db.line_items, p.1 ≠ db.next_id :=
      fun p hp => Nat.ne_of_lt (hb p hp).1
    show dbInv (upload_financial_data db u st fy rows).1
    unfold upload_financial_data
    constructor
    · intro p hp
      simp only at hp
      rw [aset_not_mem _ _ _ hfresh] at hp
      rcases List.mem_append.mp hp with hp | hp
      · exact ⟨Nat.lt_succ_of_lt (hb p hp).1, (hb p hp).2⟩
      · simp only [List.mem_singleton] at hp
        subst hp
        exact ⟨Nat.lt_succ_self _, upload_items_uniform st fy rows⟩
    · simp only
      rw [aset_not_mem _ _ _ hfresh, List.map_append, List.nodup_append]
      refine ⟨hn, List.nodup_singleton _, ?_⟩
      intro a ha ha2
      simp only [List.map_cons, List.map_nil, List.mem_singleton] at ha2
      subst ha2
      obtain ⟨p, hp, hpa⟩ := List.mem_map.mp ha
      exact hfresh p hp hpa
  | analyzeReq pid u =>
    cases hres : analyze_endpoint db pid u with
    | error e => simpa [applyOp, hres] using ⟨hb, hn⟩
    | ok p =>
      obtain ⟨db', r⟩ := p
      obtain ⟨hli, -, hnext⟩ := analyze_endpoint_preserves db pid u db' r hres
      simp only [applyOp, hres]
      constructor
      · intro q hq
        rw [hli] at hq
        rw [hnext]
        exact hb q hq
      · rw [hli]
        exact hn
  | reconcileReq pid u st it v =>
    cases hres : reconcile_endpoint db pid u st it v with
    | error e => simpa [applyOp, hres] using ⟨hb, hn⟩
    | ok p =>
      obtain ⟨db', msg⟩ := p
      obtain ⟨hli, -, hnext⟩ := reconcile_endpoint_preserves db pid u st it v
        db' msg hres
      simp only [applyOp, hres]
      constructor
      · intro q hq
        rw [hli] at hq
        rw [hnext]
        exact hb q hq
      · rw [hli]
        exact hn
  | reportReq pid u => exact ⟨hb, hn⟩

theorem dbInv_initDB : dbInv initDB :=
  ⟨fun p hp => absurd hp (by simp [initDB]), by simp [initDB]⟩

theorem dbInv_runOps (ops : List ApiOp) :
    ∀ db, dbInv db → dbInv (ops.foldl applyOp db) := by
  induction ops with
  | nil => exact fun db h => h
  | cons op rest ih => exact fun db h => ih _ (dbInv_applyOp db op h)

/-- C10: reachable stores have pairwise-distinct project ids; each project's
line items all share one statement type and one fiscal year (they stem from
exactly one upload); the id an upload takes is never already bound; and no
operation other than an upload touches the line-item table. -/
theorem c10_single_upload_provenance :
    (∀ (ops : List ApiOp) (pid : Nat) (items : List LineItem),
      alookup pid (runOps ops).line_items = some items →
      ∀ a ∈ items, ∀ b ∈ items,
        a.statement_type = b.statement_type ∧ a.year = b.year) ∧
    (∀ ops : List ApiOp, ((runOps ops).line_items.map Prod.fst).Nodup) ∧
    (∀ ops : List ApiOp,
      alookup (runOps ops).next_id (runOps ops).line_items = none) ∧
    (∀ (db : StoreDB) (op : ApiOp), op.isUpload = false →
      (applyOp db op).line_items = db.line_items) := by
  have hinv : ∀ ops : List ApiOp, dbInv (runOps ops) :=
    fun ops => dbInv_runOps ops initDB dbInv_initDB
  refine ⟨?_, fun ops => (hinv ops).2, ?_, ?_⟩
  · intro ops pid items hlk a ha b hb
    exact ((hinv ops).1 (pid, items) (alookup_mem pid items _ hlk)).2 a ha b hb
  · intro ops
    exact alookup_eq_none _ _ fun p hp => Nat.ne_of_lt ((hinv ops).1 p hp).1
  · intro db op hop
    cases op with
    | upload u st fy rows => simp [ApiOp.isUpload] at hop
    | analyzeReq pid u =>
      cases hres : analyze_endpoint db pid u with
      | error e => simp [applyOp, hres]
      | ok p =>
        obtain ⟨db', r⟩ := p
        simp only [applyOp, hres]
        exact (analyze_endpoint_preserves db pid u db' r hres).1
    | reconcileReq pid u st it v =>
      cases hres : reconcile_endpoint db pid u st it v with
      | error e => simp [applyOp, hres]
      | ok p =>
        obtain ⟨db', msg⟩ := p
        simp only [applyOp, hres]
        exact (reconcile_endpoint_preserves db pid u st it v db' msg hres).1
    | reportReq pid u => rfl

end FinanceAgent
